import Mathlib

/-!
# Stick-to-command mapper of the `tensordrone` demo

A shallow embedding of `src/demo/tensordrone/main.go`: the last-known-value store
for the four joystick axes, the joystick event handlers, the two periodic tick
handlers that turn stick positions into Tello motion commands, and the label
lookup of the classifier loop.

A `float64` is represented by the exact number it holds.  Every `float64` that
`main.go` itself stores or compares is `0.0`, the constant `offset`, a threshold, or
the conversion of an integer, so all of them are integers and the type used is `Int`.
Inside `tello.ValidatePitch` the intermediate values are rationals, and every
float64 operation rounds its exact result with `round64`.

Calls on the drone are recorded as a list of `Command`s in the order they are
issued.  A Go runtime panic (a failed type assertion, an index out of range) is
the result `none`.
-/

namespace TensorDrone

/-! ## Data model -/

/-- Go's conversion `float64(n)` of an integer `n`: `n` itself when it fits the
53-bit significand, otherwise the nearest representable number (ties to even). -/
def toFloat64 (n : Int) : Int :=
  let a := n.natAbs
  if a < 2 ^ 53 then n
  else
    let k := Nat.log2 a - 52
    let q := a / 2 ^ k
    let r := a % 2 ^ k
    let up := decide (2 ^ k < 2 * r) || (decide (2 * r = 2 ^ k) && decide (q % 2 = 1))
    Int.sign n * (((if up then q + 1 else q) * 2 ^ k : Nat) : Int)

/-- The range of Go's `int16`, the type of a joystick axis sample. -/
def isInt16 (v : Int) : Prop := -32768 ≤ v ∧ v ≤ 32767

instance (v : Int) : Decidable (isInt16 v) := by unfold isInt16; infer_instance

/-- Go `type pair struct { x float64; y float64 }`. -/
structure pair where
  x : Int
  y : Int
deriving DecidableEq, Repr

/-- The package variables `leftX, leftY, rightX, rightY atomic.Value`.  An
`atomic.Value` holds nothing until the first `Store` (`Load` then returns `nil`);
afterwards it holds the `float64` last stored. -/
structure Store where
  leftX : Option Int
  leftY : Option Int
  rightX : Option Int
  rightY : Option Int
deriving DecidableEq, Repr

/-- Constant `offset = 32767.0`. -/
def offset : Int := 32767

/-- The calls the handlers make on the Tello driver. -/
inductive Command where
  | TakeOff
  | Land
  | Forward (val : Int)
  | Backward (val : Int)
  | Right (val : Int)
  | Left (val : Int)
  | Up (val : Int)
  | Down (val : Int)
  | Clockwise (val : Int)
  | CounterClockwise (val : Int)
deriving DecidableEq, Repr

/-! ## float64 arithmetic and `tello.ValidatePitch` -/

/-- The integer nearest to `s`, ties to the even one. -/
def roundHalfEven (s : ℚ) : ℤ :=
  let f := ⌊s⌋
  let r := s - f
  if r < 1 / 2 then f else if 1 / 2 < r then f + 1 else if f % 2 = 0 then f else f + 1

/-- IEEE-754 binary64 rounding of an exact result: the nearest number with a 53-bit
significand, ties to even.  Overflow and subnormal numbers are not modelled; neither
occurs for the values `ValidatePitch` handles. -/
def round64 (x : ℚ) : ℚ :=
  if x = 0 then 0
  else
    let e := Int.log 2 |x| - 52
    (roundHalfEven (x / 2 ^ e) : ℚ) * 2 ^ e

/-- Go's conversion `int(x)` of a float64: truncation toward zero. -/
def goInt (x : ℚ) : ℤ := if 0 ≤ x then ⌊x⌋ else ⌈x⌉

/-- Go `tello.ValidatePitch(data float64, offset float64) int`, the function the
ticks call.  It belongs to the gobot Tello driver
(`gobot.io/x/gobot/platforms/dji/tello`), a dependency of the repository whose file
is not under `src/`; the definition follows the driver's body

    value := math.Abs(data) / offset
    if value >= 0.1 {
        if value <= 1.0 {
            return int((float64(int(value*100)) / 100) * 100)
        }
        return 100
    }
    return 0

with one `round64` for each float64 division and multiplication and for the
constant `0.1`.  The arguments are integer-valued float64s (`offset` is not zero). -/
def ValidatePitch (data offset : Int) : Int :=
  let value := round64 (|(data : ℚ)| / offset)
  if round64 (1 / 10) ≤ value then
    if value ≤ 1 then
      goInt (round64 (round64 ((goInt (round64 (value * 100)) : ℚ) / 100) * 100))
    else 100
  else 0

/-! ## Reading the store -/

/-- Go `getLeftStick`: both loads are followed by the type assertion `.(float64)`,
which panics on an `atomic.Value` that holds nothing. -/
def getLeftStick (s : Store) : Option pair := do
  let x ← s.leftX
  let y ← s.leftY
  pure { x := x, y := y }

/-- Go `getRightStick`. -/
def getRightStick (s : Store) : Option pair := do
  let x ← s.rightX
  let y ← s.rightY
  pure { x := x, y := y }

/-! ## Handlers registered by `work`

The handlers take the library function `tello.ValidatePitch` as the parameter `vp`:
what they do with its result does not depend on what it computes. -/

/-- The four initial `Store(float64(0.0))` calls of `work`. -/
def workInit (_s : Store) : Store :=
  { leftX := some 0, leftY := some 0, rightX := some 0, rightY := some 0 }

/-- Handler of `joystick.LeftX`: `leftX.Store(float64(data.(int16)))`. -/
def onLeftX (data : Int) (s : Store) : Store := { s with leftX := some (toFloat64 data) }

/-- Handler of `joystick.LeftY`. -/
def onLeftY (data : Int) (s : Store) : Store := { s with leftY := some (toFloat64 data) }

/-- Handler of `joystick.RightX`. -/
def onRightX (data : Int) (s : Store) : Store := { s with rightX := some (toFloat64 data) }

/-- Handler of `joystick.RightY`. -/
def onRightY (data : Int) (s : Store) : Store := { s with rightY := some (toFloat64 data) }

/-- First `switch` of the right-stick tick, on `rightStick.y`. -/
def pitchCommand (vp : Int → Int → Int) (y : Int) : Command :=
  if y < -10 then Command.Forward (vp y offset)
  else if y > 10 then Command.Backward (vp y offset)
  else Command.Forward 0

/-- Second `switch` of the right-stick tick, on `rightStick.x`. -/
def rollCommand (vp : Int → Int → Int) (x : Int) : Command :=
  if x > 10 then Command.Right (vp x offset)
  else if x < -10 then Command.Left (vp x offset)
  else Command.Right 0

/-- First `switch` of the left-stick tick, on `leftStick.y`. -/
def verticalCommand (vp : Int → Int → Int) (y : Int) : Command :=
  if y < -10 then Command.Up (vp y offset)
  else if y > 10 then Command.Down (vp y offset)
  else Command.Up 0

/-- Second `switch` of the left-stick tick, on `leftStick.x`. -/
def yawCommand (vp : Int → Int → Int) (x : Int) : Command :=
  if x > 20 then Command.Clockwise (vp x offset)
  else if x < -20 then Command.CounterClockwise (vp x offset)
  else Command.Clockwise 0

/-- The first `gobot.Every(10*time.Millisecond, ...)` handler: the right stick. -/
def rightStickTick (vp : Int → Int → Int) (s : Store) : Option (List Command) := do
  let rightStick ← getRightStick s
  pure [pitchCommand vp rightStick.y, rollCommand vp rightStick.x]

/-- The second `gobot.Every(10*time.Millisecond, ...)` handler: the left stick. -/
def leftStickTick (vp : Int → Int → Int) (s : Store) : Option (List Command) := do
  let leftStick ← getLeftStick s
  pure [verticalCommand vp leftStick.y, yawCommand vp leftStick.x]

/-- The events the mapper reacts to: the two buttons, the four axes (with the
`int16` sample the joystick driver publishes) and the two timers. -/
inductive Event where
  | TrianglePress
  | XPress
  | LeftX (data : Int)
  | LeftY (data : Int)
  | RightX (data : Int)
  | RightY (data : Int)
  | RightTick
  | LeftTick
deriving DecidableEq, Repr

/-- One handler invocation: the store afterwards and the drone calls made, or
`none` when the handler panics. -/
def handle (vp : Int → Int → Int) (s : Store) : Event → Option (Store × List Command)
  | Event.TrianglePress => some (s, [Command.TakeOff])
  | Event.XPress => some (s, [Command.Land])
  | Event.LeftX data => some (onLeftX data s, [])
  | Event.LeftY data => some (onLeftY data s, [])
  | Event.RightX data => some (onRightX data s, [])
  | Event.RightY data => some (onRightY data s, [])
  | Event.RightTick => (rightStickTick vp s).map (fun cs => (s, cs))
  | Event.LeftTick => (leftStickTick vp s).map (fun cs => (s, cs))

/-- A sequence of handler invocations, one after the other; the drone calls are
collected in order. -/
def run (vp : Int → Int → Int) (s : Store) : List Event → Option (Store × List Command)
  | [] => some (s, [])
  | e :: es => do
    let (s1, cs1) ← handle vp s e
    let (s2, cs2) ← run vp s1 es
    pure (s2, cs1 ++ cs2)

/-! ## The four logical axes -/

/-- Commands of the forward/backward axis. -/
def isPitch : Command → Bool
  | Command.Forward _ => true
  | Command.Backward _ => true
  | _ => false

/-- Commands of the right/left axis. -/
def isRoll : Command → Bool
  | Command.Right _ => true
  | Command.Left _ => true
  | _ => false

/-- Commands of the up/down axis. -/
def isVertical : Command → Bool
  | Command.Up _ => true
  | Command.Down _ => true
  | _ => false

/-- Commands of the clockwise/counter-clockwise axis. -/
def isYaw : Command → Bool
  | Command.Clockwise _ => true
  | Command.CounterClockwise _ => true
  | _ => false

/-! ## Label lookup of the classifier loop -/

/-- Go `readDescriptions`.  The file system is the argument: `none` when
`os.Open` fails, otherwise the lines the scanner delivered and `scanner.Err()`.
The result is the pair `(lines, err)`; a `nil` slice is the empty list. -/
def readDescriptions (file : Option (List String × Option String)) :
    List String × Option String :=
  match file with
  | none => ([], some "open failed")
  | some (lines, err) => (lines, err)

/-- The label lookup of the classifier loop, for the label list `descriptions`
and the column `x = maxLoc.X` of the most probable class:
`desc := "Unknown"; if maxLoc.X < 1000 { desc = descriptions[maxLoc.X] }`.
Indexing a Go slice outside `0 ≤ x < len` panics. -/
def describe (descriptions : List String) (x : Int) : Option String :=
  if x < 1000 then
    if 0 ≤ x then descriptions[x.toNat]? else none
  else some "Unknown"

/-- The label list `main` works with: `descriptions, _ := readDescriptions(os.Args[2])`. -/
def mainDescriptions (file : Option (List String × Option String)) : List String :=
  (readDescriptions file).1

/-! ## Helper lemmas -/

theorem toFloat64_of_isInt16 {v : Int} (h : isInt16 v) : toFloat64 v = v := by
  unfold isInt16 at h
  unfold toFloat64
  have hfit : v.natAbs < 2 ^ 53 := by omega
  simp only []
  rw [if_pos hfit]

theorem rightStickTick_loaded (vp : Int → Int → Int) (lx ly : Option Int)
    (x y : Int) :
    rightStickTick vp ⟨lx, ly, some x, some y⟩ = some [pitchCommand vp y, rollCommand vp x] :=
  rfl

theorem leftStickTick_loaded (vp : Int → Int → Int) (x y : Int)
    (rx ry : Option Int) :
    leftStickTick vp ⟨some x, some y, rx, ry⟩ = some [verticalCommand vp y, yawCommand vp x] :=
  rfl

theorem pitchCommand_dead (vp : Int → Int → Int) {v : Int}
    (h : -10 ≤ v ∧ v ≤ 10) : pitchCommand vp v = Command.Forward 0 := by
  unfold pitchCommand
  rw [if_neg (by omega), if_neg (by omega)]

theorem rollCommand_dead (vp : Int → Int → Int) {v : Int}
    (h : -10 ≤ v ∧ v ≤ 10) : rollCommand vp v = Command.Right 0 := by
  unfold rollCommand
  rw [if_neg (by omega), if_neg (by omega)]

theorem verticalCommand_dead (vp : Int → Int → Int) {v : Int}
    (h : -10 ≤ v ∧ v ≤ 10) : verticalCommand vp v = Command.Up 0 := by
  unfold verticalCommand
  rw [if_neg (by omega), if_neg (by omega)]

theorem yawCommand_dead (vp : Int → Int → Int) {v : Int}
    (h : -20 ≤ v ∧ v ≤ 20) : yawCommand vp v = Command.Clockwise 0 := by
  unfold yawCommand
  rw [if_neg (by omega), if_neg (by omega)]

theorem pitchCommand_above (vp : Int → Int → Int) {v : Int} (h : 10 < v) :
    pitchCommand vp v = Command.Backward (vp v offset) := by
  unfold pitchCommand
  rw [if_neg (by omega), if_pos (by omega)]

theorem rollCommand_above (vp : Int → Int → Int) {v : Int} (h : 10 < v) :
    rollCommand vp v = Command.Right (vp v offset) := by
  unfold rollCommand
  rw [if_pos (by omega)]

theorem verticalCommand_above (vp : Int → Int → Int) {v : Int} (h : 10 < v) :
    verticalCommand vp v = Command.Down (vp v offset) := by
  unfold verticalCommand
  rw [if_neg (by omega), if_pos (by omega)]

theorem yawCommand_above (vp : Int → Int → Int) {v : Int} (h : 20 < v) :
    yawCommand vp v = Command.Clockwise (vp v offset) := by
  unfold yawCommand
  rw [if_pos (by omega)]

theorem pitchCommand_below (vp : Int → Int → Int) {v : Int} (h : v < -10) :
    pitchCommand vp v = Command.Forward (vp v offset) := by
  unfold pitchCommand
  rw [if_pos h]

theorem rollCommand_below (vp : Int → Int → Int) {v : Int} (h : v < -10) :
    rollCommand vp v = Command.Left (vp v offset) := by
  unfold rollCommand
  rw [if_neg (by omega), if_pos h]

theorem verticalCommand_below (vp : Int → Int → Int) {v : Int} (h : v < -10) :
    verticalCommand vp v = Command.Up (vp v offset) := by
  unfold verticalCommand
  rw [if_pos h]

theorem yawCommand_below (vp : Int → Int → Int) {v : Int} (h : v < -20) :
    yawCommand vp v = Command.CounterClockwise (vp v offset) := by
  unfold yawCommand
  rw [if_neg (by omega), if_pos h]

/-- Rounding to the nearest integer moves a number by at most one half. -/
theorem roundHalfEven_sub_le (s : ℚ) : |(roundHalfEven s : ℚ) - s| ≤ 1 / 2 := by
  have h1 := Int.floor_le s
  have h2 := Int.lt_floor_add_one s
  unfold roundHalfEven
  simp only []
  rw [abs_le]
  split_ifs <;> constructor <;> push_cast <;> linarith

theorem roundHalfEven_intCast (n : ℤ) : roundHalfEven (n : ℚ) = n := by
  unfold roundHalfEven
  simp

theorem round64_zero : round64 0 = 0 := by
  unfold round64
  simp

/-- Rounding to float64 has relative error at most `2 ^ (-53)`. -/
theorem round64_error {x : ℚ} (hx : 0 < x) : |round64 x - x| ≤ x / 2 ^ 53 := by
  unfold round64
  rw [if_neg hx.ne']
  simp only []
  rw [abs_of_pos hx]
  set e : ℤ := Int.log 2 x - 52 with he
  have hpos : (0 : ℚ) < 2 ^ e := zpow_pos (by norm_num) e
  have hlog : (2 : ℚ) ^ Int.log 2 x ≤ x := Int.zpow_log_le_self (by norm_num) hx
  have hsplit : (2 : ℚ) ^ Int.log 2 x = 2 ^ e * 2 ^ (52 : ℤ) := by
    rw [← zpow_add₀ (by norm_num : (2 : ℚ) ≠ 0)]
    congr 1
    omega
  have hr := roundHalfEven_sub_le (x / 2 ^ e)
  have heq : (roundHalfEven (x / 2 ^ e) : ℚ) * 2 ^ e - x
      = ((roundHalfEven (x / 2 ^ e) : ℚ) - x / 2 ^ e) * 2 ^ e := by
    field_simp
  rw [heq, abs_mul, abs_of_pos hpos]
  have h52 : ((2 : ℚ) ^ (52 : ℤ)) = 2 ^ 52 := by norm_cast
  rw [hsplit, h52] at hlog
  calc |(roundHalfEven (x / 2 ^ e) : ℚ) - x / 2 ^ e| * 2 ^ e
      ≤ 1 / 2 * 2 ^ e := by gcongr
    _ = 2 ^ e * 2 ^ 52 / 2 ^ 53 := by ring
    _ ≤ x / 2 ^ 53 := by gcongr

theorem round64_le {x : ℚ} (hx : 0 < x) : round64 x ≤ x * (1 + 1 / 2 ^ 53) := by
  have h := (abs_le.mp (round64_error hx)).2
  linarith

theorem le_round64 {x : ℚ} (hx : 0 < x) : x * (1 - 1 / 2 ^ 53) ≤ round64 x := by
  have h := (abs_le.mp (round64_error hx)).1
  linarith

/-- Natural numbers below `2 ^ 53` are float64 values. -/
theorem round64_natCast (n : ℕ) (hn : n < 2 ^ 53) : round64 (n : ℚ) = n := by
  rcases Nat.eq_zero_or_pos n with h0 | hpos
  · subst h0; simpa using round64_zero
  unfold round64
  have hne : (n : ℚ) ≠ 0 := by exact_mod_cast hpos.ne'
  rw [if_neg hne]
  simp only []
  rw [abs_of_nonneg (by positivity : (0 : ℚ) ≤ n), Int.log_natCast]
  have hlt : Nat.log 2 n < 53 := Nat.log_lt_of_lt_pow hpos.ne' hn
  obtain ⟨j, hj⟩ : ∃ j : ℕ, (Nat.log 2 n : ℤ) - 52 = -(j : ℤ) := ⟨52 - Nat.log 2 n, by omega⟩
  rw [hj, zpow_neg, zpow_natCast]
  have hcast : (n : ℚ) / (2 ^ j)⁻¹ = ((n * 2 ^ j : ℤ) : ℚ) := by
    push_cast
    field_simp
  rw [hcast, roundHalfEven_intCast]
  push_cast
  field_simp

theorem round64_le_of_nonneg {x : ℚ} (hx : 0 ≤ x) : round64 x ≤ x * (1 + 1 / 2 ^ 53) := by
  rcases hx.eq_or_lt with h | h
  · rw [← h, round64_zero]; norm_num
  · exact round64_le h

theorem le_round64_of_nonneg {x : ℚ} (hx : 0 ≤ x) : x * (1 - 1 / 2 ^ 53) ≤ round64 x := by
  rcases hx.eq_or_lt with h | h
  · rw [← h, round64_zero]; norm_num
  · exact le_round64 h

theorem round64_nonneg {x : ℚ} (hx : 0 ≤ x) : 0 ≤ round64 x := by
  have h := le_round64_of_nonneg hx
  have : (0 : ℚ) ≤ x * (1 - 1 / 2 ^ 53) := mul_nonneg hx (by norm_num)
  linarith

theorem goInt_of_nonneg {x : ℚ} (hx : 0 ≤ x) : goInt x = ⌊x⌋ := by
  unfold goInt
  rw [if_pos hx]

/-- The round trip `int((float64(k) / 100) * 100)` loses at most one unit. -/
theorem hundredths_round_trip (k : ℤ) (h0 : 0 ≤ k) (h100 : k ≤ 100) :
    k - 1 ≤ goInt (round64 (round64 ((k : ℚ) / 100) * 100)) ∧
      goInt (round64 (round64 ((k : ℚ) / 100) * 100)) ≤ k := by
  have hk0 : (0 : ℚ) ≤ k := by exact_mod_cast h0
  have hk100 : (k : ℚ) ≤ 100 := by exact_mod_cast h100
  have hq : (0 : ℚ) ≤ (k : ℚ) / 100 := by positivity
  have hy0 := round64_nonneg hq
  have hy1 := round64_le_of_nonneg hq
  have hy2 := le_round64_of_nonneg hq
  have hyq : (0 : ℚ) ≤ round64 ((k : ℚ) / 100) * 100 := by positivity
  have hz0 := round64_nonneg hyq
  have hz1 := round64_le_of_nonneg hyq
  have hz2 := le_round64_of_nonneg hyq
  rw [goInt_of_nonneg hz0]
  constructor
  · rw [Int.le_floor]
    push_cast
    norm_num at hy1 hy2 hz1 hz2 ⊢
    linarith
  · rw [← Int.lt_add_one_iff, Int.floor_lt]
    push_cast
    norm_num at hy1 hy2 hz1 hz2 ⊢
    linarith

theorem round64_tenth_bounds :
    1 / 10 * (1 - 1 / 2 ^ 53) ≤ round64 (1 / 10) ∧ round64 (1 / 10) ≤ 1 / 10 * (1 + 1 / 2 ^ 53) :=
  ⟨le_round64_of_nonneg (by norm_num), round64_le_of_nonneg (by norm_num)⟩

theorem round64_one : round64 1 = 1 := by
  simpa using round64_natCast 1 (by norm_num)

theorem round64_hundred : round64 100 = 100 := by
  simpa using round64_natCast 100 (by norm_num)

/-- Dead band: a deviation below one tenth of the offset gives magnitude 0. -/
theorem ValidatePitch_dead_band (v : Int) (h : 10 * |v| < 32767) :
    ValidatePitch v offset = 0 := by
  obtain ⟨c1, c2⟩ := round64_tenth_bounds
  have ha0 : (0 : ℚ) ≤ |(v : ℚ)| := abs_nonneg _
  have ha : |(v : ℚ)| ≤ 3276 := by
    have : |v| ≤ 3276 := by omega
    exact_mod_cast this
  have hq : (0 : ℚ) ≤ |(v : ℚ)| / 32767 := by positivity
  have hv1 := round64_le_of_nonneg hq
  unfold ValidatePitch offset
  simp only []
  rw [if_neg]
  push_cast
  rw [not_le]
  norm_num at c1 c2 hv1 ⊢
  linarith

theorem goInt_intCast (n : ℤ) (h : 0 ≤ n) : goInt (n : ℚ) = n := by
  rw [goInt_of_nonneg (by exact_mod_cast h), Int.floor_intCast]

/-- Full deflection and beyond gives magnitude 100. -/
theorem ValidatePitch_full (v : Int) (h : 32767 ≤ |v|) : ValidatePitch v offset = 100 := by
  obtain ⟨c1, c2⟩ := round64_tenth_bounds
  unfold ValidatePitch offset
  simp only []
  rcases h.eq_or_lt with heq | hlt
  · have ha : |(v : ℚ)| = 32767 := by
      have : ((|v| : ℤ) : ℚ) = 32767 := by rw [← heq]; norm_num
      rwa [Int.cast_abs] at this
    have hval : |(v : ℚ)| / ((32767 : ℤ) : ℚ) = 1 := by rw [ha]; norm_num
    rw [hval, round64_one, if_pos (by norm_num at c2 ⊢; linarith), if_pos le_rfl]
    have e1 : ((1 : ℚ) * 100) = 100 := by norm_num
    have e2 : ((100 : ℚ) / 100) = 1 := by norm_num
    have g100 : goInt (100 : ℚ) = 100 := by simpa using goInt_intCast 100 (by norm_num)
    rw [e1, round64_hundred, g100]
    simp only [Int.cast_ofNat]
    rw [e2, round64_one, e1, round64_hundred, g100]
  · have ha : (32768 : ℚ) ≤ |(v : ℚ)| := by
      have : (32768 : ℤ) ≤ |v| := by omega
      exact_mod_cast this
    have hq : (0 : ℚ) ≤ |(v : ℚ)| / 32767 := by positivity
    have hv2 := le_round64_of_nonneg hq
    push_cast
    have hgt : 1 < round64 (|(v : ℚ)| / 32767) := by
      norm_num at hv2 ⊢
      linarith
    rw [if_pos (by norm_num at c2 ⊢; linarith), if_neg (not_le.mpr hgt)]

/-- Between the dead band and full deflection the inner truncation `int(value*100)`
is exact, so the magnitude is the round trip of the truncated linear value. -/
theorem ValidatePitch_mid_eq (v : Int) (h1 : 32767 ≤ 10 * |v|) (h2 : |v| < 32767) :
    ValidatePitch v offset
      = goInt (round64 (round64 (((100 * |v| / 32767 : ℤ) : ℚ) / 100) * 100)) := by
  obtain ⟨c1, c2⟩ := round64_tenth_bounds
  obtain ⟨t, ht⟩ : ∃ t : ℤ, t = 100 * |v| / 32767 := ⟨_, rfl⟩
  obtain ⟨a, hadef⟩ : ∃ a : ℤ, a = |v| := ⟨_, rfl⟩
  rw [← ht]
  rw [← hadef] at h1 h2 ht
  have hmod : (100 * a) % 32767 ≠ 0 := by
    intro hm
    obtain ⟨q, hq⟩ : ∃ q : ℤ, 100 * a = 32767 * q := ⟨100 * a / 32767, by omega⟩
    have hq1 : 0 < q := by omega
    have hq2 : q < 100 := by omega
    interval_cases q <;> omega
  have hlo : 32767 * t + 1 ≤ 100 * a := by omega
  have hhi : 100 * a ≤ 32767 * t + 32766 := by omega
  have haq : |(v : ℚ)| = (a : ℚ) := by rw [hadef, Int.cast_abs]
  have hloq : (32767 : ℚ) * t + 1 ≤ 100 * a := by exact_mod_cast hlo
  have hhiq : (100 : ℚ) * a ≤ 32767 * t + 32766 := by exact_mod_cast hhi
  have ha0 : (0 : ℚ) ≤ a := by
    have : (0 : ℤ) ≤ a := by omega
    exact_mod_cast this
  have hq : (0 : ℚ) ≤ (a : ℚ) / 32767 := by positivity
  have hv1 := round64_le_of_nonneg hq
  have hv2 := le_round64_of_nonneg hq
  have hwq : (0 : ℚ) ≤ round64 ((a : ℚ) / 32767) * 100 :=
    mul_nonneg (round64_nonneg hq) (by norm_num)
  have hw0 := round64_nonneg hwq
  have hw1 := round64_le_of_nonneg hwq
  have hw2 := le_round64_of_nonneg hwq
  have htq0 : (10 : ℚ) ≤ t := by
    have : (10 : ℤ) ≤ t := by omega
    exact_mod_cast this
  have htq100 : (t : ℚ) ≤ 99 := by
    have : t ≤ (99 : ℤ) := by omega
    exact_mod_cast this
  have hk : goInt (round64 (round64 ((a : ℚ) / 32767) * 100)) = t := by
    rw [goInt_of_nonneg hw0, Int.floor_eq_iff]
    constructor
    · norm_num at hv1 hv2 hw1 hw2 ⊢
      linarith
    · norm_num at hv1 hv2 hw1 hw2 ⊢
      linarith
  unfold ValidatePitch offset
  simp only []
  push_cast
  rw [haq, if_pos, if_pos, hk]
  · norm_num at hv1 ⊢
    linarith
  · norm_num at hv2 c2 ⊢
    linarith

/-- Between the dead band and full deflection the magnitude is the truncated linear
value `100 * |v| / 32767` or one less. -/
theorem ValidatePitch_mid (v : Int) (h1 : 32767 ≤ 10 * |v|) (h2 : |v| < 32767) :
    100 * |v| / 32767 - 1 ≤ ValidatePitch v offset ∧
      ValidatePitch v offset ≤ 100 * |v| / 32767 := by
  rw [ValidatePitch_mid_eq v h1 h2]
  exact hundredths_round_trip _ (by omega) (by omega)

theorem roundHalfEven_eq_of_near {s : ℚ} {m : ℤ} (h : |s - m| < 1 / 2) :
    roundHalfEven s = m := by
  have h1 := Int.floor_le s
  have h2 := Int.lt_floor_add_one s
  obtain ⟨h3, h4⟩ := abs_lt.mp h
  unfold roundHalfEven
  simp only []
  split_ifs with c1 c2 c3
  · have a1 : ((⌊s⌋ - m : ℤ) : ℚ) < 1 := by push_cast; linarith
    have a2 : (-1 : ℚ) < ((⌊s⌋ - m : ℤ) : ℚ) := by push_cast; linarith
    have b1 : ⌊s⌋ - m < 1 := by exact_mod_cast a1
    have b2 : -1 < ⌊s⌋ - m := by exact_mod_cast a2
    omega
  · have a1 : ((m - ⌊s⌋ : ℤ) : ℚ) < 2 := by push_cast; linarith
    have a2 : (0 : ℚ) < ((m - ⌊s⌋ : ℤ) : ℚ) := by push_cast; linarith
    have b1 : m - ⌊s⌋ < 2 := by exact_mod_cast a1
    have b2 : 0 < m - ⌊s⌋ := by exact_mod_cast a2
    omega
  · exfalso
    have a1 : ((m - ⌊s⌋ : ℤ) : ℚ) < 1 := by push_cast; linarith
    have a2 : (0 : ℚ) < ((m - ⌊s⌋ : ℤ) : ℚ) := by push_cast; linarith
    have b1 : m - ⌊s⌋ < 1 := by exact_mod_cast a1
    have b2 : 0 < m - ⌊s⌋ := by exact_mod_cast a2
    omega
  · exfalso
    have a1 : ((m - ⌊s⌋ : ℤ) : ℚ) < 1 := by push_cast; linarith
    have a2 : (0 : ℚ) < ((m - ⌊s⌋ : ℤ) : ℚ) := by push_cast; linarith
    have b1 : m - ⌊s⌋ < 1 := by exact_mod_cast a1
    have b2 : 0 < m - ⌊s⌋ := by exact_mod_cast a2
    omega

/-- The value of `round64` at a number whose binade and nearest significand are given. -/
theorem round64_eq_of {x : ℚ} (e m : ℤ) (hlo : (2 : ℚ) ^ (e + 52) ≤ x)
    (hhi : x < (2 : ℚ) ^ (e + 53)) (hm : |x / 2 ^ e - m| < 1 / 2) :
    round64 x = m * 2 ^ e := by
  have hx : 0 < x := lt_of_lt_of_le (zpow_pos (by norm_num) _) hlo
  have hl1 : e + 52 ≤ Int.log 2 x := (Int.zpow_le_iff_le_log (by norm_num) hx).mp hlo
  have hl2 : Int.log 2 x < e + 53 := (Int.lt_zpow_iff_log_lt (by norm_num) hx).mp hhi
  have hl : Int.log 2 x - 52 = e := by omega
  unfold round64
  rw [if_neg hx.ne']
  simp only []
  rw [abs_of_pos hx, hl, roundHalfEven_eq_of_near hm]

/-- The float round trip loses a unit at 29: `int((float64(29) / 100) * 100) = 28`. -/
theorem hundredths_round_trip_29 :
    goInt (round64 (round64 (((29 : ℤ) : ℚ) / 100) * 100)) = 28 := by
  have y : round64 (((29 : ℤ) : ℚ) / 100) = (5224175567749775 : ℤ) * 2 ^ (-54 : ℤ) := by
    apply round64_eq_of
    · norm_num
    · norm_num
    · rw [abs_lt]; norm_num
  have z : round64 (((5224175567749775 : ℤ) : ℚ) * 2 ^ (-54 : ℤ) * 100)
      = (8162774324609023 : ℤ) * 2 ^ (-48 : ℤ) := by
    apply round64_eq_of
    · norm_num
    · norm_num
    · rw [abs_lt]; norm_num
  rw [y, z, goInt_of_nonneg (by norm_num), Int.floor_eq_iff]
  norm_num

/-- At the raw value 9600 the truncated linear value is 29 and the magnitude is 28. -/
theorem ValidatePitch_9600 : ValidatePitch 9600 offset = 28 := by
  rw [ValidatePitch_mid_eq 9600 (by decide) (by decide)]
  have ht : (100 * |(9600 : ℤ)| / 32767 : ℤ) = 29 := by decide
  rw [ht, hundredths_round_trip_29]

/-- The magnitude never leaves the range 0..100, whatever the raw value. -/
theorem ValidatePitch_range (v : Int) :
    0 ≤ ValidatePitch v offset ∧ ValidatePitch v offset ≤ 100 := by
  obtain ⟨c1, c2⟩ := round64_tenth_bounds
  unfold ValidatePitch offset
  simp only []
  split_ifs with hc h1
  · have hv0 : (0 : ℚ) ≤ round64 (|(v : ℚ)| / ((32767 : ℤ) : ℚ)) := by
      norm_num at c1 hc ⊢
      linarith
    have hwq : (0 : ℚ) ≤ round64 (|(v : ℚ)| / ((32767 : ℤ) : ℚ)) * 100 := by positivity
    have hw0 := round64_nonneg hwq
    have hw1 := round64_le_of_nonneg hwq
    have hk0 : 0 ≤ goInt (round64 (round64 (|(v : ℚ)| / ((32767 : ℤ) : ℚ)) * 100)) := by
      rw [goInt_of_nonneg hw0]
      exact Int.floor_nonneg.mpr hw0
    have hk100 : goInt (round64 (round64 (|(v : ℚ)| / ((32767 : ℤ) : ℚ)) * 100)) ≤ 100 := by
      rw [goInt_of_nonneg hw0, ← Int.lt_add_one_iff, Int.floor_lt]
      push_cast
      norm_num at hw1 h1 ⊢
      linarith
    obtain ⟨g1, g2⟩ := hundredths_round_trip _ hk0 hk100
    refine ⟨?_, by omega⟩
    have hq : (0 : ℚ) ≤ ((goInt (round64 (round64 (|(v : ℚ)| / ((32767 : ℤ) : ℚ)) * 100)) : ℤ) : ℚ) / 100 := by
      have : (0 : ℚ) ≤ (goInt (round64 (round64 (|(v : ℚ)| / ((32767 : ℤ) : ℚ)) * 100)) : ℤ) := by
        exact_mod_cast hk0
      positivity
    have hz0 := round64_nonneg (mul_nonneg (round64_nonneg hq) (by norm_num : (0 : ℚ) ≤ 100))
    rw [goInt_of_nonneg hz0]
    exact Int.floor_nonneg.mpr hz0
  · exact ⟨by norm_num, le_rfl⟩
  · exact ⟨le_rfl, by norm_num⟩

theorem pitchCommand_axis (vp : Int → Int → Int) (v : Int) :
    isPitch (pitchCommand vp v) = true ∧ isRoll (pitchCommand vp v) = false ∧
      isVertical (pitchCommand vp v) = false ∧ isYaw (pitchCommand vp v) = false := by
  unfold pitchCommand
  split_ifs <;> exact ⟨rfl, rfl, rfl, rfl⟩

theorem rollCommand_axis (vp : Int → Int → Int) (v : Int) :
    isPitch (rollCommand vp v) = false ∧ isRoll (rollCommand vp v) = true ∧
      isVertical (rollCommand vp v) = false ∧ isYaw (rollCommand vp v) = false := by
  unfold rollCommand
  split_ifs <;> exact ⟨rfl, rfl, rfl, rfl⟩

theorem verticalCommand_axis (vp : Int → Int → Int) (v : Int) :
    isPitch (verticalCommand vp v) = false ∧ isRoll (verticalCommand vp v) = false ∧
      isVertical (verticalCommand vp v) = true ∧ isYaw (verticalCommand vp v) = false := by
  unfold verticalCommand
  split_ifs <;> exact ⟨rfl, rfl, rfl, rfl⟩

theorem yawCommand_axis (vp : Int → Int → Int) (v : Int) :
    isPitch (yawCommand vp v) = false ∧ isRoll (yawCommand vp v) = false ∧
      isVertical (yawCommand vp v) = false ∧ isYaw (yawCommand vp v) = true := by
  unfold yawCommand
  split_ifs <;> exact ⟨rfl, rfl, rfl, rfl⟩

/-- Once all four axes hold a value, no sequence of handler invocations panics and
all four axes still hold a value afterwards. -/
theorem run_loaded (vp : Int → Int → Int) (es : List Event) :
    ∀ a b c d : Int, ∃ a1 b1 c1 d1 cs,
      run vp ⟨some a, some b, some c, some d⟩ es
        = some (⟨some a1, some b1, some c1, some d1⟩, cs) := by
  induction es with
  | nil => intro a b c d; exact ⟨a, b, c, d, [], rfl⟩
  | cons e es ih =>
    intro a b c d
    cases e with
    | TrianglePress =>
      obtain ⟨a1, b1, c1, d1, cs, h⟩ := ih a b c d
      exact ⟨a1, b1, c1, d1, _, by simp [run, handle, h]; rfl⟩
    | XPress =>
      obtain ⟨a1, b1, c1, d1, cs, h⟩ := ih a b c d
      exact ⟨a1, b1, c1, d1, _, by simp [run, handle, h]; rfl⟩
    | LeftX data =>
      obtain ⟨a1, b1, c1, d1, cs, h⟩ := ih (toFloat64 data) b c d
      exact ⟨a1, b1, c1, d1, _, by simp [run, handle, onLeftX, h]; rfl⟩
    | LeftY data =>
      obtain ⟨a1, b1, c1, d1, cs, h⟩ := ih a (toFloat64 data) c d
      exact ⟨a1, b1, c1, d1, _, by simp [run, handle, onLeftY, h]; rfl⟩
    | RightX data =>
      obtain ⟨a1, b1, c1, d1, cs, h⟩ := ih a b (toFloat64 data) d
      exact ⟨a1, b1, c1, d1, _, by simp [run, handle, onRightX, h]; rfl⟩
    | RightY data =>
      obtain ⟨a1, b1, c1, d1, cs, h⟩ := ih a b c (toFloat64 data)
      exact ⟨a1, b1, c1, d1, _, by simp [run, handle, onRightY, h]; rfl⟩
    | RightTick =>
      obtain ⟨a1, b1, c1, d1, cs, h⟩ := ih a b c d
      exact ⟨a1, b1, c1, d1, _, by simp [run, handle, rightStickTick_loaded, h]; rfl⟩
    | LeftTick =>
      obtain ⟨a1, b1, c1, d1, cs, h⟩ := ih a b c d
      exact ⟨a1, b1, c1, d1, _, by simp [run, handle, leftStickTick_loaded, h]; rfl⟩

/-- The label lookup panics exactly when the index is negative, or is below the
guard 1000 but not below the length of the list. -/
theorem describe_eq_none_iff (descriptions : List String) (x : Int) :
    describe descriptions x = none ↔
      x < 0 ∨ (x < 1000 ∧ (descriptions.length : Int) ≤ x) := by
  unfold describe
  by_cases h1 : x < 1000
  · by_cases h0 : 0 ≤ x
    · rw [if_pos h1, if_pos h0, List.getElem?_eq_none_iff]
      constructor
      · intro h; right; exact ⟨h1, by omega⟩
      · rintro (h | ⟨_, h⟩) <;> omega
    · rw [if_pos h1, if_neg h0]
      simp only [true_iff]
      left; omega
  · rw [if_neg h1]
    simp only [reduceCtorEq, false_iff]
    omega

/-! ## The claims -/

/-- C1. Dead zone: when the stored value `v` of right-stick Y, right-stick X or
left-stick Y satisfies `-10 ≤ v ≤ 10`, the tick of that stick issues `Forward 0`,
`Right 0`, `Up 0` respectively for that axis; when the stored left-stick X satisfies
`-20 ≤ v ≤ 20`, the left-stick tick issues `Clockwise 0`.  The command of the
stick's other axis (stored value `w`) is the one its own switch gives. -/
theorem dead_zone_issues_zero_default (vp : Int → Int → Int)
    (lx ly rx ry : Option Int) (v w : Int) :
    (-10 ≤ v ∧ v ≤ 10 →
      rightStickTick vp ⟨lx, ly, some w, some v⟩
          = some [Command.Forward 0, rollCommand vp w] ∧
        rightStickTick vp ⟨lx, ly, some v, some w⟩
          = some [pitchCommand vp w, Command.Right 0] ∧
        leftStickTick vp ⟨some w, some v, rx, ry⟩
          = some [Command.Up 0, yawCommand vp w]) ∧
    (-20 ≤ v ∧ v ≤ 20 →
      leftStickTick vp ⟨some v, some w, rx, ry⟩
          = some [verticalCommand vp w, Command.Clockwise 0]) := by
  refine ⟨fun h => ⟨?_, ?_, ?_⟩, fun h => ?_⟩
  · rw [rightStickTick_loaded, pitchCommand_dead vp h]
  · rw [rightStickTick_loaded, rollCommand_dead vp h]
  · rw [leftStickTick_loaded, verticalCommand_dead vp h]
  · rw [leftStickTick_loaded, yawCommand_dead vp h]

/-- Witness for C1: the boundary value 10 on the translational axes and the value
-15 on left-stick X, with the other axis of each stick at rest. -/
theorem dead_zone_issues_zero_default_witness :
    ((-10 : Int) ≤ 10 ∧ (10 : Int) ≤ 10) ∧ ((-20 : Int) ≤ -15 ∧ (-15 : Int) ≤ 20) ∧
      rightStickTick ValidatePitch ⟨none, none, some 0, some 10⟩
        = some [Command.Forward 0, Command.Right 0] ∧
      leftStickTick ValidatePitch ⟨some 0, some 10, none, none⟩
        = some [Command.Up 0, Command.Clockwise 0] ∧
      leftStickTick ValidatePitch ⟨some (-15), some 0, none, none⟩
        = some [Command.Up 0, Command.Clockwise 0] :=
  ⟨by decide, by decide,
    ((dead_zone_issues_zero_default ValidatePitch none none none none 10 0).1
      (by decide)).1,
    ((dead_zone_issues_zero_default ValidatePitch none none none none 10 0).1
      (by decide)).2.2,
    (dead_zone_issues_zero_default ValidatePitch none none none none (-15) 0).2
      (by decide)⟩

/-- C2. Above the threshold: when the stored value `v` of right-stick Y, right-stick X
or left-stick Y satisfies `v > 10`, the tick of that stick issues `Backward`, `Right`,
`Down` respectively, and when the stored left-stick X satisfies `v > 20` the left-stick
tick issues `Clockwise`, each with the magnitude `ValidatePitch(v, offset)`, whatever
function `vp` is called; the magnitude `ValidatePitch v offset` lies in 0..100. -/
theorem above_threshold_issues_positive_branch (vp : Int → Int → Int)
    (lx ly rx ry : Option Int) (v w : Int) :
    (10 < v →
      rightStickTick vp ⟨lx, ly, some w, some v⟩
          = some [Command.Backward (vp v offset), rollCommand vp w] ∧
        rightStickTick vp ⟨lx, ly, some v, some w⟩
          = some [pitchCommand vp w, Command.Right (vp v offset)] ∧
        leftStickTick vp ⟨some w, some v, rx, ry⟩
          = some [Command.Down (vp v offset), yawCommand vp w]) ∧
    (20 < v →
      leftStickTick vp ⟨some v, some w, rx, ry⟩
          = some [verticalCommand vp w, Command.Clockwise (vp v offset)]) ∧
    (0 ≤ ValidatePitch v offset ∧ ValidatePitch v offset ≤ 100) := by
  refine ⟨fun h => ⟨?_, ?_, ?_⟩, fun h => ?_, ValidatePitch_range v⟩
  · rw [rightStickTick_loaded, pitchCommand_above vp h]
  · rw [rightStickTick_loaded, rollCommand_above vp h]
  · rw [leftStickTick_loaded, verticalCommand_above vp h]
  · rw [leftStickTick_loaded, yawCommand_above vp h]

/-- Witness for C2: left-stick X = 25 issues `Clockwise (ValidatePitch 25 offset)`,
and right-stick Y = 11 issues `Backward (ValidatePitch 11 offset)`. -/
theorem above_threshold_issues_positive_branch_witness :
    (20 : Int) < 25 ∧ (10 : Int) < 11 ∧
      leftStickTick ValidatePitch ⟨some 25, some 0, none, none⟩
        = some [Command.Up 0, Command.Clockwise (ValidatePitch 25 offset)] ∧
      rightStickTick ValidatePitch ⟨none, none, some 0, some 11⟩
        = some [Command.Backward (ValidatePitch 11 offset), Command.Right 0] :=
  ⟨by decide, by decide,
    (above_threshold_issues_positive_branch ValidatePitch none none none none 25 0).2.1
      (by decide),
    ((above_threshold_issues_positive_branch ValidatePitch none none none none 11 0).1
      (by decide)).1⟩

/-- C3. Below the negative threshold: when the stored value `v` of right-stick Y,
right-stick X or left-stick Y satisfies `v < -10`, the tick of that stick issues
`Forward`, `Left`, `Up` respectively, and when the stored left-stick X satisfies
`v < -20` the left-stick tick issues `CounterClockwise`, each with the magnitude
`ValidatePitch(v, offset)` computed from the raw negative value `v` itself. -/
theorem below_threshold_issues_negative_branch (vp : Int → Int → Int)
    (lx ly rx ry : Option Int) (v w : Int) :
    (v < -10 →
      rightStickTick vp ⟨lx, ly, some w, some v⟩
          = some [Command.Forward (vp v offset), rollCommand vp w] ∧
        rightStickTick vp ⟨lx, ly, some v, some w⟩
          = some [pitchCommand vp w, Command.Left (vp v offset)] ∧
        leftStickTick vp ⟨some w, some v, rx, ry⟩
          = some [Command.Up (vp v offset), yawCommand vp w]) ∧
    (v < -20 →
      leftStickTick vp ⟨some v, some w, rx, ry⟩
          = some [verticalCommand vp w, Command.CounterClockwise (vp v offset)]) := by
  refine ⟨fun h => ⟨?_, ?_, ?_⟩, fun h => ?_⟩
  · rw [rightStickTick_loaded, pitchCommand_below vp h]
  · rw [rightStickTick_loaded, rollCommand_below vp h]
  · rw [leftStickTick_loaded, verticalCommand_below vp h]
  · rw [leftStickTick_loaded, yawCommand_below vp h]

/-- Witness for C3: right-stick X = -11 issues `Left (ValidatePitch (-11) offset)` and
left-stick X = -21 issues `CounterClockwise (ValidatePitch (-21) offset)`. -/
theorem below_threshold_issues_negative_branch_witness :
    (-11 : Int) < -10 ∧ (-21 : Int) < -20 ∧
      rightStickTick ValidatePitch ⟨none, none, some (-11), some 0⟩
        = some [Command.Forward 0, Command.Left (ValidatePitch (-11) offset)] ∧
      leftStickTick ValidatePitch ⟨some (-21), some 0, none, none⟩
        = some [Command.Up 0, Command.CounterClockwise (ValidatePitch (-21) offset)] :=
  ⟨by decide, by decide,
    ((below_threshold_issues_negative_branch ValidatePitch none none none none (-11) 0).1
      (by decide)).2.1,
    (below_threshold_issues_negative_branch ValidatePitch none none none none (-21) 0).2
      (by decide)⟩

/-- C4. Never skipped, never doubled: for every combination of stored axis values the
right-stick tick issues two commands, exactly one of {Forward, Backward} and exactly
one of {Right, Left}; the left-stick tick issues two commands, exactly one of
{Up, Down} and exactly one of {Clockwise, CounterClockwise}; so one firing of both
timers issues exactly one command per logical axis.  The conditions "below" and
"above" of a switch never hold together. -/
theorem one_command_per_axis (vp : Int → Int → Int) (lx ly rx ry : Int) :
    ∃ r l, rightStickTick vp ⟨some lx, some ly, some rx, some ry⟩ = some r ∧
      leftStickTick vp ⟨some lx, some ly, some rx, some ry⟩ = some l ∧
      r.length = 2 ∧ l.length = 2 ∧
      r.countP isPitch = 1 ∧ r.countP isRoll = 1 ∧
      r.countP isVertical = 0 ∧ r.countP isYaw = 0 ∧
      l.countP isVertical = 1 ∧ l.countP isYaw = 1 ∧
      l.countP isPitch = 0 ∧ l.countP isRoll = 0 ∧
      (r ++ l).countP isPitch = 1 ∧ (r ++ l).countP isRoll = 1 ∧
      (r ++ l).countP isVertical = 1 ∧ (r ++ l).countP isYaw = 1 ∧
      ¬ (ry < -10 ∧ ry > 10) ∧ ¬ (rx > 10 ∧ rx < -10) ∧
      ¬ (ly < -10 ∧ ly > 10) ∧ ¬ (lx > 20 ∧ lx < -20) := by
  obtain ⟨p1, p2, p3, p4⟩ := pitchCommand_axis vp ry
  obtain ⟨r1, r2, r3, r4⟩ := rollCommand_axis vp rx
  obtain ⟨v1, v2, v3, v4⟩ := verticalCommand_axis vp ly
  obtain ⟨y1, y2, y3, y4⟩ := yawCommand_axis vp lx
  refine ⟨_, _, rightStickTick_loaded vp _ _ rx ry, leftStickTick_loaded vp lx ly _ _,
    rfl, rfl, ?_, ?_, ?_, ?_, ?_, ?_, ?_, ?_, ?_, ?_, ?_, ?_,
    by omega, by omega, by omega, by omega⟩ <;>
  simp [List.countP_cons, p1, p2, p3, p4, r1, r2, r3, r4, v1, v2, v3, v4, y1, y2, y3, y4]

/-- C5. Last-known-value store: the handler of an axis, run with an `int16` sample
`v`, stores exactly `v` (the conversion to `float64` is exact); the stick read then
returns `v` for that axis and the previous values of the other three; and a tick of
that stick run right after the handler issues the command its switch gives for `v`,
whatever the axis held before (`old`, possibly nothing). -/
theorem axis_update_then_read (vp : Int → Int → Int) (old : Option Int) (a b c v : Int)
    (hv : isInt16 v) :
    toFloat64 v = v ∧
    (getLeftStick (onLeftX v ⟨old, some a, some b, some c⟩) = some ⟨v, a⟩ ∧
      getRightStick (onLeftX v ⟨old, some a, some b, some c⟩) = some ⟨b, c⟩ ∧
      run vp ⟨old, some a, some b, some c⟩ [Event.LeftX v, Event.LeftTick]
        = some (⟨some v, some a, some b, some c⟩,
            [verticalCommand vp a, yawCommand vp v])) ∧
    (getLeftStick (onLeftY v ⟨some a, old, some b, some c⟩) = some ⟨a, v⟩ ∧
      getRightStick (onLeftY v ⟨some a, old, some b, some c⟩) = some ⟨b, c⟩ ∧
      run vp ⟨some a, old, some b, some c⟩ [Event.LeftY v, Event.LeftTick]
        = some (⟨some a, some v, some b, some c⟩,
            [verticalCommand vp v, yawCommand vp a])) ∧
    (getLeftStick (onRightX v ⟨some a, some b, old, some c⟩) = some ⟨a, b⟩ ∧
      getRightStick (onRightX v ⟨some a, some b, old, some c⟩) = some ⟨v, c⟩ ∧
      run vp ⟨some a, some b, old, some c⟩ [Event.RightX v, Event.RightTick]
        = some (⟨some a, some b, some v, some c⟩,
            [pitchCommand vp c, rollCommand vp v])) ∧
    (getLeftStick (onRightY v ⟨some a, some b, some c, old⟩) = some ⟨a, b⟩ ∧
      getRightStick (onRightY v ⟨some a, some b, some c, old⟩) = some ⟨c, v⟩ ∧
      run vp ⟨some a, some b, some c, old⟩ [Event.RightY v, Event.RightTick]
        = some (⟨some a, some b, some c, some v⟩,
            [pitchCommand vp v, rollCommand vp c])) := by
  have hx := toFloat64_of_isInt16 hv
  refine ⟨hx, ⟨?_, ?_, ?_⟩, ⟨?_, ?_, ?_⟩, ⟨?_, ?_, ?_⟩, ⟨?_, ?_, ?_⟩⟩ <;>
  simp [run, handle, onLeftX, onLeftY, onRightX, onRightY, getLeftStick, getRightStick,
    leftStickTick, rightStickTick, hx]

/-- Witness for C5: left-stick X held 7 and receives the sample -32768; the next
left-stick tick issues `Up 0` and `CounterClockwise (ValidatePitch (-32768) offset)`. -/
theorem axis_update_then_read_witness :
    isInt16 (-32768) ∧
      getLeftStick (onLeftX (-32768) ⟨some 7, some 0, some 0, some 0⟩)
        = some ⟨-32768, 0⟩ ∧
      run ValidatePitch ⟨some 7, some 0, some 0, some 0⟩
          [Event.LeftX (-32768), Event.LeftTick]
        = some (⟨some (-32768), some 0, some 0, some 0⟩,
            [Command.Up 0, Command.CounterClockwise (ValidatePitch (-32768) offset)]) :=
  ⟨by decide,
    (axis_update_then_read ValidatePitch (some 7) 0 0 0 (-32768) (by decide)).2.1.1,
    (axis_update_then_read ValidatePitch (some 7) 0 0 0 (-32768) (by decide)).2.1.2.2⟩

/-- C6 as stated fails: `ValidatePitch` is not the truncated linear map below the
clamp.  At the `int16` value 1000 the linear value `100 * 1000 / 32767` is 3 and the
magnitude is 0; at 9600 the linear value is 29 and the magnitude is 28. -/
theorem ValidatePitch_not_linear :
    isInt16 1000 ∧ ValidatePitch 1000 offset = 0 ∧
      ValidatePitch 1000 offset ≠ 100 * |(1000 : Int)| / 32767 ∧
    isInt16 9600 ∧ ValidatePitch 9600 offset = 28 ∧
      ValidatePitch 9600 offset ≠ 100 * |(9600 : Int)| / 32767 := by
  have h1 : ValidatePitch 1000 offset = 0 := ValidatePitch_dead_band 1000 (by decide)
  refine ⟨by decide, h1, ?_, by decide, ValidatePitch_9600, ?_⟩
  · rw [h1]; decide
  · rw [ValidatePitch_9600]; decide

/-- C6, amended. For every raw value `v` (every `int16` value in particular) the
magnitude `ValidatePitch v offset` is an integer in 0..100; it is 100 whenever
`|v| ≥ 32767` (also for `v = -32768`); it is 0 whenever `|v|` is below one tenth of
the offset (`|v| ≤ 3276`); in between it is the truncated linear value
`100 * |v| / 32767` or one less; and it depends on the deviation `|v|` only. -/
theorem ValidatePitch_dead_band_clamped (v : Int) :
    (0 ≤ ValidatePitch v offset ∧ ValidatePitch v offset ≤ 100) ∧
    (32767 ≤ |v| → ValidatePitch v offset = 100) ∧
    (10 * |v| < 32767 → ValidatePitch v offset = 0) ∧
    (32767 ≤ 10 * |v| → |v| < 32767 →
      100 * |v| / 32767 - 1 ≤ ValidatePitch v offset ∧
        ValidatePitch v offset ≤ 100 * |v| / 32767) ∧
    ValidatePitch (-v) offset = ValidatePitch v offset := by
  refine ⟨ValidatePitch_range v, ValidatePitch_full v, ValidatePitch_dead_band v,
    ValidatePitch_mid v, ?_⟩
  unfold ValidatePitch
  rw [Int.cast_neg, abs_neg]

/-- Witness for C6: the extreme sample -32768 gives 100, the sample -328 gives 0, and
the half deflection 16384 gives 49 or 50. -/
theorem ValidatePitch_dead_band_clamped_witness :
    isInt16 (-32768) ∧ ValidatePitch (-32768) offset = 100 ∧
      isInt16 (-328) ∧ ValidatePitch (-328) offset = 0 ∧
      isInt16 16384 ∧ 49 ≤ ValidatePitch 16384 offset ∧ ValidatePitch 16384 offset ≤ 50 :=
  ⟨by decide, (ValidatePitch_dead_band_clamped (-32768)).2.1 (by decide),
    by decide, (ValidatePitch_dead_band_clamped (-328)).2.2.1 (by decide),
    by decide,
    ((ValidatePitch_dead_band_clamped 16384).2.2.2.1 (by decide) (by decide)).1,
    ((ValidatePitch_dead_band_clamped 16384).2.2.2.1 (by decide) (by decide)).2⟩

/-- C7 as stated fails: with right-stick Y = -50 the tick issues
`Forward (ValidatePitch (-50) 32767)`, and that magnitude is not strictly positive. -/
theorem small_deviation_magnitude_not_positive :
    rightStickTick ValidatePitch ⟨some 0, some 0, some 0, some (-50)⟩
        = some [Command.Forward (ValidatePitch (-50) 32767), Command.Right 0] ∧
      ¬ (0 < ValidatePitch (-50) 32767) := by
  have h0 : ValidatePitch (-50) 32767 = 0 := ValidatePitch_dead_band (-50) (by decide)
  refine ⟨?_, by rw [h0]; decide⟩
  rw [rightStickTick_loaded, pitchCommand_below ValidatePitch (by decide),
    rollCommand_dead ValidatePitch (by decide)]
  rfl

/-- C7, amended. With right-stick Y = -50 and `offset = 32767` the right-stick tick
issues `Forward m` with `m = ValidatePitch(-50, 32767)`, whatever function is called
as `ValidatePitch`; the deviation 50 is below one tenth of the offset, inside the
dead band of `tello.ValidatePitch`, so `m = 0` and the tick issues `Forward 0`. -/
theorem small_deviation_issues_forward (vp : Int → Int → Int) (lx ly : Option Int)
    (w : Int) :
    offset = 32767 ∧
    rightStickTick vp ⟨lx, ly, some w, some (-50)⟩
        = some [Command.Forward (vp (-50) 32767), rollCommand vp w] ∧
    ValidatePitch (-50) 32767 = 0 ∧
    rightStickTick ValidatePitch ⟨lx, ly, some w, some (-50)⟩
        = some [Command.Forward 0, rollCommand ValidatePitch w] := by
  have h0 : ValidatePitch (-50) offset = 0 := ValidatePitch_dead_band (-50) (by decide)
  refine ⟨rfl, ?_, h0, ?_⟩
  · rw [rightStickTick_loaded, pitchCommand_below vp (by decide)]
    rfl
  · rw [rightStickTick_loaded, pitchCommand_below ValidatePitch (by decide), h0]

/-- C8. Unset axes default to zero: after the four initial stores of `work`, whatever
the package variables held before, all four axes hold 0, both stick reads succeed and
return (0, 0), the right-stick tick issues `Forward 0` and `Right 0`, and the
left-stick tick issues `Up 0` and `Clockwise 0`.  From then on every sequence of
handler invocations runs without a failed type assertion, and both stick reads still
succeed afterwards. -/
theorem unset_axes_default_to_zero (vp : Int → Int → Int) (s0 : Store) :
    workInit s0 = ⟨some 0, some 0, some 0, some 0⟩ ∧
    getLeftStick (workInit s0) = some ⟨0, 0⟩ ∧
    getRightStick (workInit s0) = some ⟨0, 0⟩ ∧
    rightStickTick vp (workInit s0) = some [Command.Forward 0, Command.Right 0] ∧
    leftStickTick vp (workInit s0) = some [Command.Up 0, Command.Clockwise 0] ∧
    ∀ es : List Event, ∃ s cs, run vp (workInit s0) es = some (s, cs) ∧
      (getLeftStick s).isSome = true ∧ (getRightStick s).isSome = true := by
  refine ⟨rfl, rfl, rfl, rfl, rfl, fun es => ?_⟩
  obtain ⟨a1, b1, c1, d1, cs, h⟩ := run_loaded vp es 0 0 0 0
  exact ⟨_, cs, h, rfl, rfl⟩

/-- C9. Buttons are one-shot and touch nothing else: in every state the triangle
handler issues exactly `TakeOff` and the X handler exactly `Land`, and both leave the
store as it was; every sequence of handler invocations that follows a press behaves
as it would have without the press, the button's command put in front. -/
theorem buttons_one_shot (vp : Int → Int → Int) (s : Store) (es : List Event) :
    handle vp s Event.TrianglePress = some (s, [Command.TakeOff]) ∧
    handle vp s Event.XPress = some (s, [Command.Land]) ∧
    run vp s (Event.TrianglePress :: es)
      = (run vp s es).map (fun r => (r.1, Command.TakeOff :: r.2)) ∧
    run vp s (Event.XPress :: es)
      = (run vp s es).map (fun r => (r.1, Command.Land :: r.2)) := by
  refine ⟨rfl, rfl, ?_, ?_⟩ <;>
  · simp only [run, handle, Option.bind_eq_bind, Option.some_bind]
    cases run vp s es <;> rfl

/-- C10 fails on the code: when the label file cannot be opened `main` works with
the empty list, and the lookup for class 0 is out of range; so is the lookup for
class 2 in a list of two labels.  A class inside the list is found, and class 1000
gives "Unknown". -/
theorem label_lookup_out_of_range :
    mainDescriptions none = [] ∧
    describe (mainDescriptions none) 0 = none ∧
    describe (mainDescriptions (some (["tench", "goldfish"], none))) 2 = none ∧
    describe (mainDescriptions (some (["tench", "goldfish"], none))) 1 = some "goldfish" ∧
    describe (mainDescriptions none) 1000 = some "Unknown" := by
  decide

end TensorDrone
